import Mathlib

/-!
Verification of the `fsl-first-level` GUI (`src/run.py`) against its
natural-language specification.

Strings are modelled as `List Char` (`Str`), and Python's string
primitives (`str.split` with a one-character separator, `str.strip`,
substring membership `in`, `float(...)`) are given executable Lean
models below.  The GUI widget state is a record `GuiState`; every
external library call (BIDS indexing, pandas reads, the nipype workflow
run, pickle loading, nilearn plotting) is an oracle supplied in an
environment record, returning `Except` to model Python exceptions; the
exception payload is the text of `str(e)`.  A function returning
`Except.error` models an exception escaping that function.
-/

set_option autoImplicit false

namespace FSL

/-- Python strings, modelled as lists of characters. -/
abbrev Str := List Char

/-- The characters removed by Python `str.strip()` (ASCII whitespace;
the unicode whitespace also stripped by Python does not occur in this
program's data). -/
def isSpace (c : Char) : Bool :=
  c == ' ' || c == '\t' || c == '\n' || c == '\r' || c == '\x0b' || c == '\x0c'

/-- Python `s.strip()`. -/
def pyStrip (s : Str) : Str :=
  ((s.dropWhile isSpace).reverse.dropWhile isSpace).reverse

/-- Python `s.split(sep)` for a one-character separator: splits at every
occurrence, keeps empty pieces, always returns at least one piece. -/
def splitChar (sep : Char) : Str → List Str
  | [] => [[]]
  | c :: cs =>
    if c = sep then [] :: splitChar sep cs
    else
      match splitChar sep cs with
      | [] => [[c]]
      | p :: ps => (c :: p) :: ps

/-- Python `s.split(sep, 1)` for a one-character separator: splits at the
first occurrence only. -/
def splitOnce (sep : Char) : Str → List Str
  | [] => [[]]
  | c :: cs =>
    if c = sep then [[], cs]
    else
      match splitOnce sep cs with
      | [] => [[c]]
      | p :: ps => (c :: p) :: ps

/-- `needle` is a prefix of `hay` (helper for Python substring `in`). -/
def isPrefOf : Str → Str → Bool
  | [], _ => true
  | _ :: _, [] => false
  | a :: as, b :: bs => a == b && isPrefOf as bs

/-- Python substring membership `needle in hay`. -/
def pyIn (needle : Str) : Str → Bool
  | [] => needle.isEmpty
  | c :: t => isPrefOf needle (c :: t) || pyIn needle t

/-- Decidable equality for `Except`, used to evaluate concrete runs. -/
instance {ε α : Type} [DecidableEq ε] [DecidableEq α] : DecidableEq (Except ε α) := fun
  | .ok a, .ok b =>
    match decEq a b with
    | isTrue h => isTrue (by rw [h])
    | isFalse h => isFalse (by intro hc; cases hc; exact h rfl)
  | .error a, .error b =>
    match decEq a b with
    | isTrue h => isTrue (by rw [h])
    | isFalse h => isFalse (by intro hc; cases hc; exact h rfl)
  | .ok _, .error _ => isFalse (by intro hc; cases hc)
  | .error _, .ok _ => isFalse (by intro hc; cases hc)

/-- Numeric value of a digit string. -/
def digitsVal (ds : Str) : ℕ :=
  ds.foldl (fun a c => 10 * a + (c.toNat - 48)) 0

/-- The rational `sgn * mant * 10 ^ e`, built from integer data only. -/
def decValue (sgn : ℤ) (mant : ℕ) (e : ℤ) : ℚ :=
  if 0 ≤ e then mkRat (sgn * mant * 10 ^ e.toNat) 1
  else mkRat (sgn * mant) (10 ^ (-e).toNat)

/-- Exponent part of `pyFloat`: parses `[+-]? digits` after the `e` and
scales the mantissa (`flen` fractional digits already consumed). -/
def pyExp (sgn : ℤ) (mant flen : ℕ) (t : Str) : Option ℚ :=
  let (esgn, t1) : ℤ × Str :=
    match t with
    | '+' :: u => (1, u)
    | '-' :: u => (-1, u)
    | u => (1, u)
  let ed := t1.takeWhile Char.isDigit
  let r3 := t1.dropWhile Char.isDigit
  if ed = [] ∨ r3 ≠ [] then none
  else some (decValue sgn mant (esgn * (digitsVal ed : ℤ) - (flen : ℤ)))

/-- Python `float(s)` on plain decimal numerals
(`[+-]? (digits [. digits?] | . digits) ([eE] [+-]? digits)?`), exactly,
as a rational.  The special spellings Python additionally accepts
(`inf`, `nan`, underscore digit separators, non-ASCII digits) are
outside the modelled domain and return `none`; no claim depends on
them, and decimal values are represented exactly rather than rounded
to binary floating point. -/
def pyFloat (s : Str) : Option ℚ :=
  let (sgn, s1) : ℤ × Str :=
    match s with
    | '+' :: t => (1, t)
    | '-' :: t => (-1, t)
    | t => (1, t)
  let ip := s1.takeWhile Char.isDigit
  let r1 := s1.dropWhile Char.isDigit
  let (fp, r2) : Str × Str :=
    match r1 with
    | '.' :: t => (t.takeWhile Char.isDigit, t.dropWhile Char.isDigit)
    | t => ([], t)
  if ip = [] ∧ fp = [] then none
  else
    let mant : ℕ := digitsVal ip * 10 ^ fp.length + digitsVal fp
    match r2 with
    | [] => some (decValue sgn mant (-(fp.length : ℤ)))
    | 'e' :: t => pyExp sgn mant fp.length t
    | 'E' :: t => pyExp sgn mant fp.length t
    | _ => none

/-- `str(e)` for the `ValueError` raised by unpacking a 1-element list
into two variables (`name, spec = line.split(":", 1)` and
`task, weight = pair.split("=")`). -/
def unpackFew : Str := "not enough values to unpack (expected 2, got 1)".toList

/-- `str(e)` for the `ValueError` raised by unpacking a list of three or
more elements into two variables. -/
def unpackMany : Str := "too many values to unpack (expected 2)".toList

/-- `str(e)` for the `ValueError` raised by `float(...)` on a
non-numeric string (CPython quotes the offending string; the quotes are
omitted here, which no claim depends on). -/
def floatErr (s : Str) : Str :=
  "could not convert string to float: ".toList ++ s

/-- One contrast record `[name, "T", conditions, weights]` as built by
`parse_contrasts`. -/
structure Contrast where
  name : Str
  ctype : Str
  conditions : List Str
  weights : List ℚ
deriving DecidableEq

/-- Python dict assignment `d[k] = v` on an insertion-ordered
association list: an existing key keeps its position and gets the new
value, a new key is appended. -/
def dictInsert (d : List (Str × ℚ)) (k : Str) (v : ℚ) : List (Str × ℚ) :=
  if k ∈ d.map Prod.fst then d.map (fun p => if p.1 = k then (p.1, v) else p)
  else d ++ [(k, v)]

/-- One iteration of the inner loop of `parse_contrasts`:
`task, weight = pair.split("="); weights[task.strip()] = float(weight.strip())`. -/
def parsePair (d : List (Str × ℚ)) (p : Str) : Except Str (List (Str × ℚ)) :=
  match splitChar '=' p with
  | [task, weight] =>
    match pyFloat (pyStrip weight) with
    | some v => .ok (dictInsert d (pyStrip task) v)
    | none => .error (floatErr (pyStrip weight))
  | [_] => .error unpackFew
  | _ => .error unpackMany

/-- The inner loop of `parse_contrasts` over `spec.split(",")`. -/
def parsePairs (d : List (Str × ℚ)) : List Str → Except Str (List (Str × ℚ))
  | [] => .ok d
  | p :: ps =>
    match parsePair d p with
    | .ok d2 => parsePairs d2 ps
    | .error e => .error e

/-- One non-blank line of `parse_contrasts`:
`name, spec = line.split(":", 1)`, the pair loop, then
`[name.strip(), "T", list(weights.keys()), list(weights.values())]`. -/
def parseLine (line : Str) : Except Str Contrast :=
  match splitOnce ':' line with
  | [name, spec] =>
    match parsePairs [] (splitChar ',' spec) with
    | .ok d => .ok ⟨pyStrip name, "T".toList, d.map Prod.fst, d.map Prod.snd⟩
    | .error e => .error e
  | _ => .error unpackFew

/-- The line loop of `parse_contrasts`: blank lines (empty after
`strip`) are skipped, the first exception aborts the whole call. -/
def parseLines : List Str → Except Str (List Contrast)
  | [] => .ok []
  | l :: ls =>
    if pyStrip l = [] then parseLines ls
    else
      match parseLine l with
      | .ok c =>
        match parseLines ls with
        | .ok cs => .ok (c :: cs)
        | .error e => .error e
      | .error e => .error e

/-- `MainWindow.parse_contrasts`, applied to the contrast text box
contents: split on newlines and parse each non-blank line. -/
def parse_contrasts (text : Str) : Except Str (List Contrast) :=
  parseLines (splitChar '\n' text)

/-! ## GUI state and external-call environment -/

/-- The widget state of `MainWindow`.  Field defaults mirror
`MainWindow.__init__`.  `warnings` records `QMessageBox.warning` popups
and `files_written` records files written by `plot.savefig`; `status`
is the plain text of the status `QTextEdit` box. -/
structure GuiState where
  bids_dir : Str := []
  output_dir : Str := []
  lbl_bids : Str := "No folder selected".toList
  lbl_output : Str := "No folder selected".toList
  txt_tasks : Str := "Finger, Foot, Lips".toList
  txt_session : Str := "test".toList
  txt_contrasts : Str := "Finger vs. Rest: Finger=1\nAll Motor: Finger=1, Foot=1, Lips=1".toList
  combo_items : List Str := []
  combo_current : Str := []
  combo_enabled : Bool := false
  layout_loaded : Bool := false
  status : Str := "Ready".toList
  warnings : List Str := []
  files_written : List Str := []
deriving DecidableEq

/-- `MainWindow.log`: `QTextEdit.append` starts a new paragraph, so with
the initial nonempty text `"Ready"` the plain text grows by a newline
plus the message. -/
def logSt (st : GuiState) (m : Str) : GuiState :=
  { st with status := st.status ++ '\n' :: m }

/-- `os.path.basename` on a POSIX path: the part after the last slash. -/
def pyBasename (p : Str) : Str :=
  (splitChar '/' p).getLastD []

/-- One row of the events file as read by `pd.read_csv(..., sep="\t")`;
numeric cells are modelled as exact rationals. -/
structure EventRow where
  trial_type : Str
  onset : ℚ
  duration : ℚ
deriving DecidableEq

/-- The confounds table: columns in file order, each a name together
with its cells; `none` is a NaN cell (filled by `fillna(0)`). -/
abbrev ConfTable := List (Str × List (Option ℚ))

/-- The `nipype` `Bunch` built for `subject_info`. -/
structure Bunch where
  conditions : List Str
  onsets : List (List ℚ)
  durations : List (List ℚ)
  regressors : List (List ℚ)
  regressor_names : List Str
deriving DecidableEq

/-- Default workflow name in `create_feat_first_level_wf(self, name="Feat1stLevel")`. -/
def feat_default_name : Str := "Feat1stLevel".toList

/-- A `nipype` workflow as far as `run.py` configures one: its name and
the fields assigned in `run_first_level` before `feat_wf.run()`. -/
structure Workflow where
  name : Str := feat_default_name
  base_dir : Str := []
  in_func : Str := []
  brain_mask : Str := []
  subject_info : List Bunch := []
  contrasts : List Contrast := []
deriving DecidableEq

/-- `MainWindow.create_feat_first_level_wf`: builds the workflow under
its (default) name; the node graph itself is external library work. -/
def create_feat_first_level_wf (name : Str := feat_default_name) : Workflow :=
  { name := name }

/-- The object unpickled from `result_modelestimate.pklz`;
`outputs.zstats` is a list whose entries are lists of z-stat images
(images are identified by their paths). -/
structure Results where
  zstats : List (List Str)
deriving DecidableEq

/-- External-call oracle for `run_first_level`.  Each field is the
outcome of one library call; `.error e` models that call raising an
exception with text `str(e) = e`. -/
structure Env where
  get_bold : Except Str Str
  get_mask : Except Str Str
  get_events : Except Str Str
  get_confounds : Except Str Str
  read_events : Except Str (List EventRow)
  read_confounds : Except Str ConfTable
  wf_run : Workflow → Except Str Unit
  load_result : Str → Except Str Results
  render : Str → Except Str Unit

/-- External-call oracle for `choose_bids`. -/
structure BidsEnv where
  layout_init : Except Str Unit
  get_confounds_path : Except Str Str
  read_confounds : Except Str ConfTable

/-! ## Messages appearing in the code -/

def step1msg : Str := "Step 1: Loading BIDS layout...".toList
def step2msg : Str := "Step 2: Setting up first-level analysis...".toList
def step3msg : Str := "Step 3: Running first-level analysis...".toList
def step4msg : Str := "Step 4: Saving results...".toList
def tok2 : Str := "Step 2".toList
def tok3 : Str := "Step 3".toList
def tok4 : Str := "Step 4".toList
def warnText : Str := "Select BIDS and output folders!".toList
def doneMsg : Str := "First-level analysis completed!".toList
def bidsOkMsg : Str := "BIDS layout loaded successfully.".toList
def secondMsg : Str := "Second-level analysis not implemented yet.".toList

/-- `str(e)` of the `UnboundLocalError` raised when an except block
reads a local variable that was never assigned (the variable name and
quoting of the CPython message are omitted; no claim depends on them). -/
def unboundMsg : Str :=
  "cannot access local variable where it is not associated with a value".toList

/-- The error line `f"Error in {step}: {str(e)} - File: {file}"`. -/
def errLine (step e file : Str) : Str :=
  "Error in ".toList ++ step ++ ": ".toList ++ e ++ " - File: ".toList ++ file

/-- The error line of `choose_bids`:
`f"Error in Step 1 (Load BIDS): {str(e)} - File: {confounds_file}"`. -/
def bidsErrLine (e cf : Str) : Str :=
  "Error in Step 1 (Load BIDS): ".toList ++ e ++ " - File: ".toList ++ cf

/-! ## choose_bids -/

/-- The file-name locals of `run_first_level` that its except block may
read; `none` models a local not yet assigned at the time the exception
was raised. -/
structure Bindings where
  bold_file : Option Str := none
  events_file : Option Str := none
  confounds_file : Option Str := none
deriving DecidableEq

/-- The try block of `choose_bids` (after `self.bids_dir`, the label and
the `"Step 1"` log line are set).  On an exception the error carries
`str(e)`, the binding of the local `confounds_file` (`none` when the
exception was raised before its assignment), and the state at raise
time. -/
def bidsTry (st : GuiState) (env : BidsEnv) :
    Except (Str × Option Str × GuiState) GuiState :=
  match env.layout_init with
  | .error e => .error (e, none, st)
  | .ok _ =>
    let st := { st with layout_loaded := true }
    match env.get_confounds_path with
    | .error e => .error (e, none, st)
    | .ok cf =>
      match env.read_confounds with
      | .error e => .error (e, some cf, st)
      | .ok table =>
        let cols := table.map Prod.fst
        let st := { st with combo_items := cols, combo_current := cols.headD [],
                            combo_enabled := true }
        .ok (logSt st bidsOkMsg)

/-- The except block of `choose_bids`: logs the error line, but reading
an unassigned `confounds_file` in the f-string itself raises, and that
exception escapes the handler. -/
def bids_handler (e : Str) (cf : Option Str) (st : GuiState) : Except Str GuiState :=
  match cf with
  | some f => .ok (logSt st (bidsErrLine e f))
  | none => .error unboundMsg

/-- `MainWindow.choose_bids`: `folder` is the directory picked in the
dialog (empty on cancel). -/
def choose_bids (st : GuiState) (folder : Str) (env : BidsEnv) : Except Str GuiState :=
  if folder = [] then .ok st
  else
    let st := { st with bids_dir := folder, lbl_bids := pyBasename folder }
    let st := logSt st step1msg
    match bidsTry st env with
    | .ok st2 => .ok st2
    | .error (e, cf, st2) => bids_handler e cf st2

/-! ## run_first_level -/

/-- The confound-column comprehension of `run_first_level`:
`[itemText(i) for i in range(count) if itemText(i) in currentText()]` —
note `in` is a substring test against the selected item's text. -/
def comboFilter (items : List Str) (current : Str) : List Str :=
  (List.range items.length).filterMap (fun i =>
    if pyIn (items.getD i []) current then some (items.getD i []) else none)

/-- `confounds[c]`: pandas column access, `KeyError` when absent
(CPython's `str(e)` quotes the key; the quotes are omitted). -/
def col_lookup (confounds : ConfTable) (c : Str) : Except Str (List (Option ℚ)) :=
  match confounds.find? (fun p => p.1 = c) with
  | some p => .ok p.2
  | none => .error c

/-- `list(confounds[c].fillna(0)[4:])`: NaN cells become `0`, the first
four rows are dropped. -/
def regressor_series (v : List (Option ℚ)) : List ℚ :=
  (v.map (fun x => x.getD 0)).drop 4

/-- The regressor comprehension
`[list(confounds[c].fillna(0)[4:]) for c in confound_cols]`. -/
def regressors_of (confounds : ConfTable) : List Str → Except Str (List (List ℚ))
  | [] => .ok []
  | c :: cs =>
    match col_lookup confounds c with
    | .error e => .error e
    | .ok v =>
      match regressors_of confounds cs with
      | .error e => .error e
      | .ok rs => .ok (regressor_series v :: rs)

/-- `list(events[events.trial_type == t].onset - 10)`. -/
def df_onsets (events : List EventRow) (t : Str) : List ℚ :=
  (events.filter (fun r => r.trial_type = t)).map (fun r => r.onset - 10)

/-- `list(events[events.trial_type == t].duration)`. -/
def df_durations (events : List EventRow) (t : Str) : List ℚ :=
  (events.filter (fun r => r.trial_type = t)).map (fun r => r.duration)

/-- The `Bunch(...)` constructed for `subject_info`. -/
def build_subject_info (tasks : List Str) (events : List EventRow)
    (confounds : ConfTable) (cols : List Str) : Except Str Bunch :=
  match regressors_of confounds cols with
  | .error e => .error e
  | .ok regs =>
    .ok ⟨tasks, tasks.map (df_onsets events), tasks.map (df_durations events),
         regs, cols⟩

/-- The hardcoded result path
`f"{self.output_dir}/Feat1stLevel/modelestimate/result_modelestimate.pklz"`. -/
def result_path (od : Str) : Str :=
  od ++ "/Feat1stLevel/modelestimate/result_modelestimate.pklz".toList

/-- Decimal rendering of the loop index in `f"zstat_{i}.png"`. -/
def natToStr (n : ℕ) : Str := (Nat.repr n).toList

/-- The `zstat_<i>.png` output path of iteration `i`. -/
def zstatPath (od : Str) (i : ℕ) : Str :=
  od ++ "/zstat_".toList ++ natToStr i ++ ".png".toList

/-- The plotting loop
`for i, t_map in enumerate(...): plot = plot_glass_brain(...); plot.savefig(...)`.
An exception while rendering aborts the loop with the state written so
far; a successful `savefig` is recorded in `files_written`. -/
def saveLoop (st : GuiState) (render : Str → Except Str Unit) (i : ℕ) :
    List Str → Except (Str × GuiState) GuiState
  | [] => .ok st
  | t :: ts =>
    match render t with
    | .error e => .error (e, st)
    | .ok _ =>
      let st := { st with files_written := st.files_written ++ [zstatPath st.output_dir i] }
      saveLoop st render (i + 1) ts

/-- The try block of `run_first_level` (after the `"Step 2"` log line).
On an exception the error carries `str(e)`, the bindings of the locals
`bold_file`, `events_file`, `confounds_file` at raise time, and the
state at raise time. -/
def tryBody (st : GuiState) (env : Env) :
    Except (Str × Bindings × GuiState) GuiState :=
  let tasks := (splitChar ',' st.txt_tasks).map pyStrip
  let _session := pyStrip st.txt_session
  match parse_contrasts st.txt_contrasts with
  | .error e => .error (e, {}, st)
  | .ok contrasts =>
  let confound_cols := comboFilter st.combo_items st.combo_current
  match env.get_bold with
  | .error e => .error (e, {}, st)
  | .ok bold_file =>
  let b : Bindings := { bold_file := some bold_file }
  match env.get_mask with
  | .error e => .error (e, b, st)
  | .ok mask_file =>
  match env.get_events with
  | .error e => .error (e, b, st)
  | .ok events_file =>
  let b := { b with events_file := some events_file }
  match env.get_confounds with
  | .error e => .error (e, b, st)
  | .ok confounds_file =>
  let b := { b with confounds_file := some confounds_file }
  match env.read_events with
  | .error e => .error (e, b, st)
  | .ok events =>
  match env.read_confounds with
  | .error e => .error (e, b, st)
  | .ok confounds =>
  match build_subject_info tasks events confounds confound_cols with
  | .error e => .error (e, b, st)
  | .ok bunch =>
  let feat_wf : Workflow := create_feat_first_level_wf
  let feat_wf := { feat_wf with
    base_dir := st.output_dir
    in_func := bold_file
    brain_mask := mask_file
    subject_info := [bunch]
    contrasts := contrasts }
  let st := logSt st step3msg
  match env.wf_run feat_wf with
  | .error e => .error (e, b, st)
  | .ok _ =>
  let st := logSt st step4msg
  match env.load_result (result_path st.output_dir) with
  | .error e => .error (e, b, st)
  | .ok res =>
  match res.zstats with
  | [] => .error ("list index out of range".toList, b, st)
  | zmaps :: _ =>
  match saveLoop st env.render 0 zmaps with
  | .error (e, st2) => .error (e, b, st2)
  | .ok st2 => .ok (logSt st2 doneMsg)

/-- The file named by the conditional expression
`bold_file if "bold" in str(e) else events_file if "events" in str(e) else confounds_file`;
`none` when the selected local is unassigned. -/
def referenced_file (e : Str) (b : Bindings) : Option Str :=
  if pyIn "bold".toList e then b.bold_file
  else if pyIn "events".toList e then b.events_file
  else b.confounds_file

/-- The except block of `run_first_level`: attributes the failure by
substring-matching the accumulated status text, in the order
`"Step 2"`, `"Step 3"`, `"Step 4"`.  In the `"Step 2"` branch reading
an unassigned file local raises, and that exception escapes. -/
def first_level_handler (e : Str) (b : Bindings) (st : GuiState) : Except Str GuiState :=
  if pyIn tok2 st.status then
    match referenced_file e b with
    | some f => .ok (logSt st (errLine "Setup Workflow".toList e f))
    | none => .error unboundMsg
  else if pyIn tok3 st.status then
    .ok (logSt st (errLine "Run Analysis".toList e (st.output_dir ++ "/Feat1stLevel".toList)))
  else if pyIn tok4 st.status then
    .ok (logSt st (errLine "Save Results".toList e (st.output_dir ++ "/zstat_*.png".toList)))
  else
    .ok (logSt st (errLine "Unknown".toList e "Unknown".toList))

/-- `MainWindow.run_first_level`. -/
def run_first_level (st : GuiState) (env : Env) : Except Str GuiState :=
  if st.bids_dir = [] ∨ st.output_dir = [] then
    .ok { st with warnings := st.warnings ++ [warnText] }
  else
    let st := logSt st step2msg
    match tryBody st env with
    | .ok st2 => .ok st2
    | .error (e, b, st2) => first_level_handler e b st2

/-- `MainWindow.run_second_level`: the placeholder handler. -/
def run_second_level (st : GuiState) : GuiState :=
  logSt st secondMsg

/-! ## Claim-side constructions and concrete witness data -/

/-- A contrast line body of the form `<c1>=<w1>, <c2>=<w2>, ...`
(the spec's written pair list, joined by a comma and a space). -/
def mkSpec : List (Str × Str) → Str
  | [] => []
  | [p] => p.1 ++ '=' :: p.2
  | p :: q :: ps => (p.1 ++ '=' :: p.2) ++ ',' :: ' ' :: mkSpec (q :: ps)

/-- An environment in which every external call raises. -/
def envX : Env :=
  { get_bold := .error "boom".toList
    get_mask := .error "boom".toList
    get_events := .error "boom".toList
    get_confounds := .error "boom".toList
    read_events := .error "boom".toList
    read_confounds := .error "boom".toList
    wf_run := fun _ => .error "boom".toList
    load_result := fun _ => .error "boom".toList
    render := fun _ => .error "boom".toList }

/-- An environment in which every external call succeeds, over a
one-task, one-confound dataset. -/
def envOK : Env :=
  { get_bold := .ok "/b/bold.nii.gz".toList
    get_mask := .ok "/b/mask.nii.gz".toList
    get_events := .ok "/b/events.tsv".toList
    get_confounds := .ok "/b/conf.tsv".toList
    read_events := .ok [⟨"X".toList, 30, 5⟩]
    read_confounds := .ok [("c".toList, [none, some 1, none, some 2, some 3, none])]
    wf_run := fun _ => .ok ()
    load_result := fun _ => .ok ⟨[["z0".toList, "z1".toList]]⟩
    render := fun _ => .ok () }

/-- A state with both directories chosen and a malformed contrast line. -/
def stBad : GuiState :=
  { bids_dir := "/b".toList, output_dir := "/o".toList, txt_contrasts := "bad".toList }

/-- A state with both directories chosen and one well-formed contrast. -/
def stOK : GuiState :=
  { bids_dir := "/b".toList, output_dir := "/o".toList,
    txt_tasks := "X".toList, txt_contrasts := "A: X=1".toList }

/-- A BIDS environment whose layout indexing raises. -/
def bidsEnvX : BidsEnv :=
  { layout_init := .error "no layout".toList
    get_confounds_path := .error "x".toList
    read_confounds := .error "x".toList }

/-- A BIDS environment in which only the confounds read raises. -/
def bidsEnvY : BidsEnv :=
  { layout_init := .ok ()
    get_confounds_path := .ok "/data/conf.tsv".toList
    read_confounds := .error "bad file".toList }

/-- `envOK` with a failing events-file read: the exception is raised
after the three file paths have been bound. -/
def envY : Env :=
  { envOK with read_events := .error "cannot read events".toList }

/-- The bindings of the file locals after all four `layout.get` calls of
`envOK` have succeeded. -/
def bindsY : Bindings :=
  { bold_file := some "/b/bold.nii.gz".toList
    events_file := some "/b/events.tsv".toList
    confounds_file := some "/b/conf.tsv".toList }

/-- The workflow value `run_first_level` passes to `feat_wf.run()`,
given the parsed contrasts, the two image paths and the subject-info
bunch. -/
def wfExpect (st : GuiState) (cs : List Contrast) (bold mask : Str) (bunch : Bunch) : Workflow :=
  { name := feat_default_name
    base_dir := st.output_dir
    in_func := bold
    brain_mask := mask
    subject_info := [bunch]
    contrasts := cs }

/-! ## Lemmas about the string primitives -/

theorem splitChar_ne_nil (sep : Char) (s : Str) : splitChar sep s ≠ [] := by
  induction s with
  | nil => simp [splitChar]
  | cons c cs ih =>
    simp only [splitChar]
    split
    · simp
    · cases h : splitChar sep cs <;> simp

theorem splitChar_sep_cons (sep : Char) (b : Str) :
    splitChar sep (sep :: b) = [] :: splitChar sep b := by
  simp [splitChar]

theorem splitChar_append (sep : Char) (a b : Str) (h : sep ∉ a) :
    splitChar sep (a ++ b) = (splitChar sep b).modifyHead (a ++ ·) := by
  induction a with
  | nil =>
    cases hb : splitChar sep b <;> simp_all [List.modifyHead]
  | cons c a ih =>
    have hc : c ≠ sep := fun hcs => h (hcs ▸ List.mem_cons_self c a)
    have ha : sep ∉ a := fun hs => h (List.mem_cons_of_mem c hs)
    rcases hp : splitChar sep b with _ | ⟨p, ps⟩
    · exact absurd hp (splitChar_ne_nil sep b)
    · simp only [List.cons_append, splitChar, if_neg (fun hh => hc hh), List.append_eq]
      rw [ih ha, hp]
      simp [List.modifyHead]

theorem splitChar_eq_single (sep : Char) (s : Str) (h : sep ∉ s) :
    splitChar sep s = [s] := by
  have := splitChar_append sep s [] h
  simpa [splitChar, List.modifyHead] using this

theorem splitOnce_ne_nil (sep : Char) (s : Str) : splitOnce sep s ≠ [] := by
  induction s with
  | nil => simp [splitOnce]
  | cons c cs ih =>
    simp only [splitOnce]
    split
    · simp
    · cases h : splitOnce sep cs <;> simp

theorem splitOnce_append (sep : Char) (a b : Str) (h : sep ∉ a) :
    splitOnce sep (a ++ b) = (splitOnce sep b).modifyHead (a ++ ·) := by
  induction a with
  | nil =>
    cases hb : splitOnce sep b <;> simp_all [List.modifyHead]
  | cons c a ih =>
    have hc : c ≠ sep := fun hcs => h (hcs ▸ List.mem_cons_self c a)
    have ha : sep ∉ a := fun hs => h (List.mem_cons_of_mem c hs)
    rcases hp : splitOnce sep b with _ | ⟨p, ps⟩
    · exact absurd hp (splitOnce_ne_nil sep b)
    · simp only [List.cons_append, splitOnce, if_neg (fun hh => hc hh), List.append_eq]
      rw [ih ha, hp]
      simp [List.modifyHead]

theorem splitOnce_eq_single (sep : Char) (s : Str) (h : sep ∉ s) :
    splitOnce sep s = [s] := by
  have := splitOnce_append sep s [] h
  simpa [splitOnce, List.modifyHead] using this

theorem splitOnce_split (sep : Char) (a b : Str) (h : sep ∉ a) :
    splitOnce sep (a ++ sep :: b) = [a, b] := by
  rw [splitOnce_append sep a (sep :: b) h]
  simp [splitOnce, List.modifyHead]

theorem pyStrip_cons_space (s : Str) : pyStrip (' ' :: s) = pyStrip s := by
  simp [pyStrip, List.dropWhile, isSpace]

theorem pyStrip_ne_nil_of_mem (s : Str) (c : Char) (hc : c ∈ s)
    (hns : isSpace c = false) : pyStrip s ≠ [] := by
  intro hnil
  have h1 : (s.dropWhile isSpace).reverse.dropWhile isSpace = [] := by
    have := congrArg List.reverse hnil
    simpa [pyStrip] using this
  have h2 : ∀ x ∈ s.dropWhile isSpace, isSpace x = true := by
    intro x hx
    exact List.dropWhile_eq_nil_iff.mp h1 x (List.mem_reverse.mpr hx)
  have h3 : ∀ x ∈ s.takeWhile isSpace, isSpace x = true :=
    fun x hx => List.mem_takeWhile_imp hx
  have hsplit : s.takeWhile isSpace ++ s.dropWhile isSpace = s :=
    List.takeWhile_append_dropWhile isSpace s
  rw [← hsplit] at hc
  rcases List.mem_append.mp hc with h | h
  · rw [h3 c h] at hns; cases hns
  · rw [h2 c h] at hns; cases hns

/-! ## Lemmas about the contrast parser -/

theorem dictInsert_of_notMem (d : List (Str × ℚ)) (k : Str) (v : ℚ)
    (h : k ∉ d.map Prod.fst) : dictInsert d k v = d ++ [(k, v)] := by
  simp [dictInsert, h]

theorem parsePair_ok (d : List (Str × ℚ)) (c w : Str) (v : ℚ)
    (hc : '=' ∉ c) (hw : '=' ∉ w) (hv : pyFloat (pyStrip w) = some v) :
    parsePair d (c ++ '=' :: w) = .ok (dictInsert d (pyStrip c) v) := by
  have h1 : splitChar '=' (c ++ '=' :: w) = [c, w] := by
    rw [splitChar_append '=' c ('=' :: w) hc, splitChar_sep_cons,
        splitChar_eq_single '=' w hw]
    simp [List.modifyHead]
  simp [parsePair, h1, hv]

theorem parsePairs_ok (zs : List Str) (kvs : List (Str × ℚ))
    (hf : List.Forall₂
      (fun z kv => ∀ d2, parsePair d2 z = .ok (dictInsert d2 kv.1 kv.2)) zs kvs) :
    ∀ d : List (Str × ℚ), (kvs.map Prod.fst).Nodup →
    (∀ k ∈ kvs.map Prod.fst, k ∉ d.map Prod.fst) →
    parsePairs d zs = .ok (d ++ kvs) := by
  induction hf with
  | nil =>
    intro d _ _
    simp [parsePairs]
  | cons hz hrest ih =>
    rename_i z kv zs kvs
    intro d hnd hdisj
    have hk : kv.1 ∉ d.map Prod.fst := hdisj kv.1 (by simp)
    have hins : dictInsert d kv.1 kv.2 = d ++ [kv] := by
      rw [dictInsert_of_notMem d kv.1 kv.2 hk]
    have hstep : parsePairs d (z :: zs) = parsePairs (dictInsert d kv.1 kv.2) zs := by
      simp [parsePairs, hz d]
    have hnd' : (kv.1 :: kvs.map Prod.fst).Nodup := by simpa using hnd
    have hnd2 : (kvs.map Prod.fst).Nodup := (List.nodup_cons.mp hnd').2
    have hkv : kv.1 ∉ kvs.map Prod.fst := (List.nodup_cons.mp hnd').1
    have hdisj2 : ∀ k ∈ kvs.map Prod.fst, k ∉ (d ++ [kv]).map Prod.fst := by
      intro k hkmem
      simp only [List.map_append, List.mem_append, List.map_cons, List.map_nil,
        List.mem_singleton, not_or]
      refine ⟨hdisj k (by simp [hkmem]), ?_⟩
      intro hkk
      exact hkv (hkk ▸ hkmem)
    rw [hstep, hins, ih (d ++ [kv]) hnd2 hdisj2]
    simp

theorem splitChar_mkSpec (p : Str × Str) (ps : List (Str × Str))
    (h : ∀ q ∈ p :: ps, ',' ∉ q.1 ∧ ',' ∉ q.2) :
    splitChar ',' (mkSpec (p :: ps)) =
      (p.1 ++ '=' :: p.2) :: ps.map (fun q => ' ' :: (q.1 ++ '=' :: q.2)) := by
  induction ps generalizing p with
  | nil =>
    have hp := h p (by simp)
    apply splitChar_eq_single
    intro hmem
    rcases List.mem_append.mp hmem with hm | hm
    · exact hp.1 hm
    · rcases List.mem_cons.mp hm with hm | hm
      · cases hm
      · exact hp.2 hm
  | cons q ps ih =>
    have hp := h p (by simp)
    have hcomma : ',' ∉ p.1 ++ '=' :: p.2 := by
      intro hmem
      rcases List.mem_append.mp hmem with hm | hm
      · exact hp.1 hm
      · rcases List.mem_cons.mp hm with hm | hm
        · cases hm
        · exact hp.2 hm
    have hstep : mkSpec (p :: q :: ps) =
        (p.1 ++ '=' :: p.2) ++ ',' :: ' ' :: mkSpec (q :: ps) := rfl
    rw [hstep, splitChar_append ',' _ _ hcomma, splitChar_sep_cons]
    have hsp : splitChar ',' (' ' :: mkSpec (q :: ps)) =
        (splitChar ',' (mkSpec (q :: ps))).modifyHead (' ' :: ·) := by
      have := splitChar_append ',' [' '] (mkSpec (q :: ps)) (by decide)
      simpa using this
    rw [hsp, ih q (fun r hr => h r (List.mem_cons_of_mem p hr))]
    simp [List.modifyHead]

theorem zipWith_keys (f : Str × Str → Str) :
    ∀ (ps : List (Str × Str)) (vs : List ℚ), ps.length = vs.length →
    (List.zipWith (fun q v => (f q, v)) ps vs).map Prod.fst = ps.map f := by
  intro ps
  induction ps with
  | nil => intro vs _; simp
  | cons p ps ih =>
    intro vs hlen
    cases vs with
    | nil => cases hlen
    | cons v vs => simp [ih vs (by simpa using hlen)]

theorem zipWith_vals (f : Str × Str → Str) :
    ∀ (ps : List (Str × Str)) (vs : List ℚ), ps.length = vs.length →
    (List.zipWith (fun q v => (f q, v)) ps vs).map Prod.snd = vs := by
  intro ps
  induction ps with
  | nil =>
    intro vs hlen
    cases vs with
    | nil => simp
    | cons v vs => cases hlen
  | cons p ps ih =>
    intro vs hlen
    cases vs with
    | nil => cases hlen
    | cons v vs => simp [ih vs (by simpa using hlen)]

/-- `c` can occur in `mkSpec ps` only through a pair component or as one
of the joining characters. -/
theorem mkSpec_not_mem (c : Char) (hc1 : c ≠ '=') (hc2 : c ≠ ',') (hc3 : c ≠ ' ') :
    ∀ ps : List (Str × Str), (∀ q ∈ ps, c ∉ q.1 ∧ c ∉ q.2) → c ∉ mkSpec ps := by
  intro ps
  induction ps with
  | nil =>
    intro _
    simp [mkSpec]
  | cons p ps ih =>
    intro h
    cases ps with
    | nil =>
      intro hm
      simp only [mkSpec] at hm
      rcases List.mem_append.mp hm with hm | hm
      · exact (h p (by simp)).1 hm
      · rcases List.mem_cons.mp hm with hm | hm
        · exact hc1 hm
        · exact (h p (by simp)).2 hm
    | cons q ps2 =>
      intro hm
      have hstep : mkSpec (p :: q :: ps2) =
          (p.1 ++ '=' :: p.2) ++ ',' :: ' ' :: mkSpec (q :: ps2) := rfl
      rw [hstep] at hm
      rcases List.mem_append.mp hm with hm | hm
      · rcases List.mem_append.mp hm with hm | hm
        · exact (h p (by simp)).1 hm
        · rcases List.mem_cons.mp hm with hm | hm
          · exact hc1 hm
          · exact (h p (by simp)).2 hm
      · rcases List.mem_cons.mp hm with hm | hm
        · exact hc2 hm
        · rcases List.mem_cons.mp hm with hm | hm
          · exact hc3 hm
          · exact ih (fun r hr => h r (List.mem_cons_of_mem p hr)) hm

/-- Each space-prefixed later piece of a split contrast body parses as a
dict insertion of its stripped condition name and weight value. -/
theorem pieces_forall : ∀ (ps : List (Str × Str)) (vs : List ℚ),
    (∀ q ∈ ps, '=' ∉ q.1 ∧ '=' ∉ q.2) →
    List.Forall₂ (fun (q : Str × Str) v => pyFloat (pyStrip q.2) = some v) ps vs →
    List.Forall₂ (fun z kv => ∀ d2, parsePair d2 z = .ok (dictInsert d2 kv.1 kv.2))
      (ps.map (fun q => ' ' :: (q.1 ++ '=' :: q.2)))
      (List.zipWith (fun q v => (pyStrip q.1, v)) ps vs) := by
  intro ps
  induction ps with
  | nil =>
    intro vs _ hv
    cases hv
    simp only [List.map_nil, List.zipWith_nil_left]
    exact List.Forall₂.nil
  | cons q ps ih =>
    intro vs hq hv
    rcases hv with _ | ⟨h1, h2⟩
    rename_i v vs
    simp only [List.map_cons, List.zipWith_cons_cons]
    refine List.Forall₂.cons ?_ (ih vs (fun r hr => hq r (List.mem_cons_of_mem q hr)) h2)
    intro d2
    have he1 : '=' ∉ (' ' :: q.1) := by
      intro hm
      rcases List.mem_cons.mp hm with hm | hm
      · cases hm
      · exact (hq q (by simp)).1 hm
    have hpp := parsePair_ok d2 (' ' :: q.1) q.2 v he1 (hq q (by simp)).2 h1
    rw [show (' ' : Char) :: (q.1 ++ '=' :: q.2) = (' ' :: q.1) ++ '=' :: q.2 from rfl,
        hpp, pyStrip_cons_space]

/-- C1, counterexample: a line of the claimed general form whose two
pairs name the same condition.  `parse_contrasts` stores the pairs in a
Python dict, so `"A: X=1, X=2"` yields the single condition `"X"` with
the last weight `2.0`, not the written pair list `X, X` with weights
`1.0, 2.0` that the claim predicts. -/
theorem parse_contrasts_duplicate_counterexample :
    parse_contrasts "A: X=1, X=2".toList =
      .ok [⟨"A".toList, "T".toList, ["X".toList], [2]⟩] ∧
    parse_contrasts "A: X=1, X=2".toList ≠
      .ok [⟨"A".toList, "T".toList, ["X".toList, "X".toList], [1, 2]⟩] :=
  ⟨by decide, by decide⟩

/-- C1 (amended): `"A: X=1, Y=-1"` parses to the contrast record with
name `A`, type `T`, conditions `X, Y` and weights `1.0, -1.0`; and in
general a line `<name>: <c1>=<w1>, <c2>=<w2>, ...` — with the four
delimiter characters not occurring inside the written fields, the
weights parsing as floats, and the stripped condition names pairwise
distinct — parses to `[name stripped, "T", stripped condition names,
weight values]` in the written order of the pairs.  (Without the
distinctness proviso the pairs collapse into the dict as shown by the
counterexample.) -/
theorem parse_contrasts_line_form :
    parse_contrasts "A: X=1, Y=-1".toList =
      .ok [⟨"A".toList, "T".toList, ["X".toList, "Y".toList], [1, -1]⟩] ∧
    ∀ (nm : Str) (ps : List (Str × Str)) (vs : List ℚ),
      ps ≠ [] → ':' ∉ nm → '\n' ∉ nm →
      (∀ q ∈ ps, ',' ∉ q.1 ∧ '=' ∉ q.1 ∧ '\n' ∉ q.1 ∧
                 ',' ∉ q.2 ∧ '=' ∉ q.2 ∧ '\n' ∉ q.2) →
      List.Forall₂ (fun (q : Str × Str) v => pyFloat (pyStrip q.2) = some v) ps vs →
      (ps.map fun q => pyStrip q.1).Nodup →
      parse_contrasts (nm ++ ':' :: mkSpec ps) =
        .ok [⟨pyStrip nm, "T".toList, ps.map fun q => pyStrip q.1, vs⟩] := by
  constructor
  · decide
  · intro nm ps vs hne hnm hnmn hq hv hnd
    rcases List.exists_cons_of_ne_nil hne with ⟨p, ps2, rfl⟩
    rcases hv with _ | ⟨hv1, hv2⟩
    rename_i v vs2
    -- the line contains no newline, so it is the single split piece
    have hnl : '\n' ∉ nm ++ ':' :: mkSpec (p :: ps2) := by
      intro hm
      rcases List.mem_append.mp hm with hm | hm
      · exact hnmn hm
      · rcases List.mem_cons.mp hm with hm | hm
        · cases hm
        · exact mkSpec_not_mem '\n' (by decide) (by decide) (by decide) (p :: ps2)
            (fun q hq2 => ⟨((hq q hq2).2.2.1 : _), (hq q hq2).2.2.2.2.2⟩) hm
    have hsplit : splitChar '\n' (nm ++ ':' :: mkSpec (p :: ps2)) =
        [nm ++ ':' :: mkSpec (p :: ps2)] :=
      splitChar_eq_single _ _ hnl
    -- the line is not blank
    have hblank : pyStrip (nm ++ ':' :: mkSpec (p :: ps2)) ≠ [] :=
      pyStrip_ne_nil_of_mem _ ':'
        (List.mem_append_right nm (List.mem_cons_self ':' _)) (by decide)
    -- name/spec split
    have hcolon : splitOnce ':' (nm ++ ':' :: mkSpec (p :: ps2)) =
        [nm, mkSpec (p :: ps2)] :=
      splitOnce_split ':' nm (mkSpec (p :: ps2)) hnm
    -- split of the body on commas
    have hpieces : splitChar ',' (mkSpec (p :: ps2)) =
        (p.1 ++ '=' :: p.2) :: ps2.map (fun q => ' ' :: (q.1 ++ '=' :: q.2)) :=
      splitChar_mkSpec p ps2 (fun q hq2 => ⟨(hq q hq2).1, (hq q hq2).2.2.2.1⟩)
    -- the pair loop builds the dict in written order
    have hlen : ps2.length = vs2.length := List.Forall₂.length_eq hv2
    have hff : List.Forall₂
        (fun z kv => ∀ d2, parsePair d2 z = .ok (dictInsert d2 kv.1 kv.2))
        ((p.1 ++ '=' :: p.2) :: ps2.map (fun q => ' ' :: (q.1 ++ '=' :: q.2)))
        ((pyStrip p.1, v) :: List.zipWith (fun q v2 => (pyStrip q.1, v2)) ps2 vs2) := by
      refine List.Forall₂.cons ?_
        (pieces_forall ps2 vs2
          (fun r hr => ⟨(hq r (List.mem_cons_of_mem p hr)).2.1,
                        (hq r (List.mem_cons_of_mem p hr)).2.2.2.2.1⟩) hv2)
      intro d2
      exact parsePair_ok d2 p.1 p.2 v (hq p (by simp)).2.1 (hq p (by simp)).2.2.2.2.1 hv1
    have hkeys : ((pyStrip p.1, v) :: List.zipWith (fun q v2 => (pyStrip q.1, v2)) ps2 vs2).map
        Prod.fst = (p :: ps2).map (fun q => pyStrip q.1) := by
      simp [zipWith_keys (fun q => pyStrip q.1) ps2 vs2 hlen]
    have hvals : ((pyStrip p.1, v) :: List.zipWith (fun q v2 => (pyStrip q.1, v2)) ps2 vs2).map
        Prod.snd = v :: vs2 := by
      simp [zipWith_vals (fun q => pyStrip q.1) ps2 vs2 hlen]
    have hpl : parsePairs [] ((p.1 ++ '=' :: p.2) :: ps2.map (fun q => ' ' :: (q.1 ++ '=' :: q.2))) =
        .ok ((pyStrip p.1, v) :: List.zipWith (fun q v2 => (pyStrip q.1, v2)) ps2 vs2) := by
      have := parsePairs_ok _ _ hff []
        (by rw [hkeys]; exact hnd)
        (by intro k _; simp)
      simpa using this
    have hline : parseLine (nm ++ ':' :: mkSpec (p :: ps2)) =
        .ok ⟨pyStrip nm, "T".toList, (p :: ps2).map (fun q => pyStrip q.1), v :: vs2⟩ := by
      rw [parseLine, hcolon]
      simp only [hpieces, hpl, hkeys, hvals]
    rw [parse_contrasts, hsplit, parseLines, if_neg hblank, hline, parseLines]

/-! ## Projection lemmas for the GUI state -/

@[simp] theorem logSt_bids_dir (st : GuiState) (m : Str) :
    (logSt st m).bids_dir = st.bids_dir := rfl

@[simp] theorem logSt_output_dir (st : GuiState) (m : Str) :
    (logSt st m).output_dir = st.output_dir := rfl

@[simp] theorem logSt_txt_tasks (st : GuiState) (m : Str) :
    (logSt st m).txt_tasks = st.txt_tasks := rfl

@[simp] theorem logSt_txt_session (st : GuiState) (m : Str) :
    (logSt st m).txt_session = st.txt_session := rfl

@[simp] theorem logSt_txt_contrasts (st : GuiState) (m : Str) :
    (logSt st m).txt_contrasts = st.txt_contrasts := rfl

@[simp] theorem logSt_combo_items (st : GuiState) (m : Str) :
    (logSt st m).combo_items = st.combo_items := rfl

@[simp] theorem logSt_combo_current (st : GuiState) (m : Str) :
    (logSt st m).combo_current = st.combo_current := rfl

@[simp] theorem logSt_files_written (st : GuiState) (m : Str) :
    (logSt st m).files_written = st.files_written := rfl

theorem logSt_status (st : GuiState) (m : Str) :
    (logSt st m).status = st.status ++ '\n' :: m := rfl

/-- C4: contrast parsing splits only on the fixed delimiters and has no
error handling of its own.  Blank lines are skipped; a line without a
colon, a pair without an equals sign, and a non-numeric weight each
raise a `ValueError`; and when `parse_contrasts` raises inside
`run_first_level`, the run reduces to the single generic except handler
applied to that exception. -/
theorem contrast_parsing_no_recovery :
    (∀ (l : Str) (ls : List Str), pyStrip l = [] →
      parseLines (l :: ls) = parseLines ls) ∧
    (∀ l : Str, ':' ∉ l → parseLine l = .error unpackFew) ∧
    (∀ (d : List (Str × ℚ)) (p : Str), '=' ∉ p → parsePair d p = .error unpackFew) ∧
    (∀ (d : List (Str × ℚ)) (c w : Str), '=' ∉ c → '=' ∉ w →
      pyFloat (pyStrip w) = none →
      parsePair d (c ++ '=' :: w) = .error (floatErr (pyStrip w))) ∧
    (∀ (st : GuiState) (env : Env) (e : Str),
      st.bids_dir ≠ [] → st.output_dir ≠ [] →
      parse_contrasts st.txt_contrasts = .error e →
      run_first_level st env = first_level_handler e ⟨none, none, none⟩ (logSt st step2msg)) := by
  refine ⟨?_, ?_, ?_, ?_, ?_⟩
  · intro l ls h
    simp [parseLines, h]
  · intro l h
    simp [parseLine, splitOnce_eq_single ':' l h]
  · intro d p h
    simp [parsePair, splitChar_eq_single '=' p h]
  · intro d c w hc hw hv
    have h1 : splitChar '=' (c ++ '=' :: w) = [c, w] := by
      rw [splitChar_append '=' c ('=' :: w) hc, splitChar_sep_cons,
          splitChar_eq_single '=' w hw]
      simp [List.modifyHead]
    simp [parsePair, h1, hv]
  · intro st env e h1 h2 hpc
    rw [run_first_level, if_neg (by simp [h1, h2])]
    have hpc2 : parse_contrasts (logSt st step2msg).txt_contrasts = .error e := hpc
    simp only [tryBody, hpc2]

/-- C4 witness: the conjuncts applied to concrete blank, colon-free,
equals-free and non-numeric inputs, and a concrete run routed into the
catch-all. -/
theorem contrast_parsing_no_recovery_witness :
    parseLines (" ".toList :: ["A: X=1".toList]) = parseLines ["A: X=1".toList] ∧
    parseLine "no colon line".toList = .error unpackFew ∧
    parsePair [] "X 1".toList = .error unpackFew ∧
    parsePair [] ("X".toList ++ '=' :: "one".toList) = .error (floatErr (pyStrip "one".toList)) ∧
    run_first_level stBad envX =
      first_level_handler unpackFew ⟨none, none, none⟩ (logSt stBad step2msg) :=
  ⟨contrast_parsing_no_recovery.1 _ _ (by decide),
   contrast_parsing_no_recovery.2.1 _ (by decide),
   contrast_parsing_no_recovery.2.2.1 _ _ (by decide),
   contrast_parsing_no_recovery.2.2.2.1 _ _ _ (by decide) (by decide) (by decide),
   contrast_parsing_no_recovery.2.2.2.2 stBad envX unpackFew (by decide) (by decide) (by decide)⟩

/-- C2, counterexample: two concrete exceptions that the catch-all does
not absorb.  With both directories set and the contrast text `"bad"`,
`parse_contrasts` raises before any file local is assigned, the except
block of `run_first_level` evaluates an unassigned local in its
f-string, and the resulting `UnboundLocalError` escapes the handler.
Likewise in `choose_bids` when `BIDSLayout` itself raises. -/
theorem handler_unbound_counterexample :
    run_first_level stBad envX = .error unboundMsg ∧
    choose_bids {} "/data".toList bidsEnvX = .error unboundMsg :=
  ⟨by decide, by decide⟩

/-- C2 (amended): every exception raised in a button handler's try block
is caught by that handler's single catch-all, which then appends exactly
one line to the status log and lets nothing propagate — provided the
file-name local that the except block's message reads is bound at raise
time; when it is unbound (an exception before the corresponding
assignment), the except block itself raises an unbound-local error that
escapes the handler. -/
theorem handlers_catch_or_unbound :
    (∀ (st : GuiState) (env : Env) (e : Str) (b : Bindings) (st2 : GuiState),
      st.bids_dir ≠ [] → st.output_dir ≠ [] →
      tryBody (logSt st step2msg) env = .error (e, b, st2) →
      (∃ line, run_first_level st env = .ok (logSt st2 line)) ∨
      (pyIn tok2 st2.status = true ∧ referenced_file e b = none ∧
        run_first_level st env = .error unboundMsg)) ∧
    (∀ (st : GuiState) (folder : Str) (env : BidsEnv) (e : Str)
       (cf : Option Str) (st2 : GuiState),
      folder ≠ [] →
      bidsTry (logSt { st with bids_dir := folder, lbl_bids := pyBasename folder } step1msg) env
        = .error (e, cf, st2) →
      (∃ line, choose_bids st folder env = .ok (logSt st2 line)) ∨
      (cf = none ∧ choose_bids st folder env = .error unboundMsg)) := by
  constructor
  · intro st env e b st2 h1 h2 htry
    have hrun : run_first_level st env = first_level_handler e b st2 := by
      rw [run_first_level, if_neg (by simp [h1, h2])]
      simp only [htry]
    rw [first_level_handler] at hrun
    by_cases hs2 : pyIn tok2 st2.status
    · rw [if_pos hs2] at hrun
      rcases href : referenced_file e b with _ | f
      · rw [href] at hrun
        exact Or.inr ⟨hs2, by simp [href], hrun⟩
      · rw [href] at hrun
        exact Or.inl ⟨_, hrun⟩
    · rw [if_neg hs2] at hrun
      by_cases hs3 : pyIn tok3 st2.status
      · rw [if_pos hs3] at hrun
        exact Or.inl ⟨_, hrun⟩
      · rw [if_neg hs3] at hrun
        by_cases hs4 : pyIn tok4 st2.status
        · rw [if_pos hs4] at hrun
          exact Or.inl ⟨_, hrun⟩
        · rw [if_neg hs4] at hrun
          exact Or.inl ⟨_, hrun⟩
  · intro st folder env e cf st2 hf htry
    have hrun : choose_bids st folder env = bids_handler e cf st2 := by
      rw [choose_bids, if_neg hf]
      simp only [htry]
    cases cf with
    | none => exact Or.inr ⟨rfl, hrun⟩
    | some f => exact Or.inl ⟨_, hrun⟩

/-- C2 witness: a concrete failing events-file read, raised after the
file locals are bound: the catch-all logs one line and returns. -/
theorem handlers_catch_or_unbound_witness :
    (∃ line, run_first_level stOK envY = .ok (logSt (logSt stOK step2msg) line)) ∨
    (pyIn tok2 (logSt stOK step2msg).status = true ∧
     referenced_file "cannot read events".toList bindsY = none ∧
     run_first_level stOK envY = .error unboundMsg) :=
  handlers_catch_or_unbound.1 stOK envY "cannot read events".toList bindsY
    (logSt stOK step2msg) (by decide) (by decide) (by decide)

/-- C3: when the except handler of `run_first_level` reports, the step
name is selected purely by substring-matching the accumulated status
text, tested in the fixed order `"Step 2"`, `"Step 3"`, `"Step 4"`,
yielding `Setup Workflow`, `Run Analysis`, `Save Results`, and
otherwise `Unknown`; the step (unlike the file) does not depend on the
error message. -/
theorem handler_step_attribution (e : Str) (b : Bindings) (st st2 : GuiState)
    (h : first_level_handler e b st = .ok st2) :
    ∃ f, st2.status = st.status ++ '\n' ::
      errLine (if pyIn tok2 st.status then "Setup Workflow".toList
               else if pyIn tok3 st.status then "Run Analysis".toList
               else if pyIn tok4 st.status then "Save Results".toList
               else "Unknown".toList) e f := by
  rw [first_level_handler] at h
  by_cases h2 : pyIn tok2 st.status
  · rw [if_pos h2] at h
    rcases href : referenced_file e b with _ | f
    · rw [href] at h
      cases h
    · rw [href] at h
      cases h
      exact ⟨f, by simp [logSt_status, if_pos h2]⟩
  · rw [if_neg h2] at h
    by_cases h3 : pyIn tok3 st.status
    · rw [if_pos h3] at h
      cases h
      exact ⟨st.output_dir ++ "/Feat1stLevel".toList,
        by simp [logSt_status, if_neg h2, if_pos h3]⟩
    · rw [if_neg h3] at h
      by_cases h4 : pyIn tok4 st.status
      · rw [if_pos h4] at h
        cases h
        exact ⟨st.output_dir ++ "/zstat_*.png".toList,
          by simp [logSt_status, if_neg h2, if_neg h3, if_pos h4]⟩
      · rw [if_neg h4] at h
        cases h
        exact ⟨"Unknown".toList,
          by simp [logSt_status, if_neg h2, if_neg h3, if_neg h4]⟩

/-- C3 witness: the attribution applied to a concrete handler run whose
log contains `"Step 2"` and whose message names no file. -/
theorem handler_step_attribution_witness :
    ∃ f, (logSt (logSt stOK step2msg)
        (errLine "Setup Workflow".toList "boom".toList "/b/conf.tsv".toList)).status =
      (logSt stOK step2msg).status ++ '\n' ::
        errLine (if pyIn tok2 (logSt stOK step2msg).status then "Setup Workflow".toList
                 else if pyIn tok3 (logSt stOK step2msg).status then "Run Analysis".toList
                 else if pyIn tok4 (logSt stOK step2msg).status then "Save Results".toList
                 else "Unknown".toList) "boom".toList f :=
  handler_step_attribution "boom".toList bindsY (logSt stOK step2msg) _ (by decide)

/-- C10: with either directory still empty, clicking Run First-Level
only shows the warning dialog and returns: the status log, the written
files and every other field are unchanged, and no external call or
parsing can occur (the result does not mention the environment). -/
theorem missing_dirs_early_return (st : GuiState) (env : Env)
    (h : st.bids_dir = [] ∨ st.output_dir = []) :
    run_first_level st env = .ok { st with warnings := st.warnings ++ [warnText] } := by
  rw [run_first_level, if_pos h]

/-- C10 witness: the fresh window state with no folders selected. -/
theorem missing_dirs_early_return_witness :
    run_first_level {} envX = .ok { ({} : GuiState) with warnings := [warnText] } :=
  missing_dirs_early_return {} envX (Or.inl rfl)

/-- C7, counterexample: clicking Run Second-Level on the fresh window
state launches nothing — it writes no file, shows no dialog, touches no
external library (the handler takes no environment at all), and only
appends the placeholder line to the status log. -/
theorem second_level_counterexample :
    run_second_level {} =
      { ({} : GuiState) with
        status := ("Ready".toList ++ '\n' :: secondMsg) } ∧
    (run_second_level {}).files_written = [] ∧
    (run_second_level {}).warnings = [] :=
  ⟨by decide, by decide, by decide⟩

/-- C7 (amended): the Run Second-Level button performs no second-level
analysis; its handler only appends
`"Second-level analysis not implemented yet."` to the status log and
changes nothing else. -/
theorem second_level_placeholder (st : GuiState) :
    run_second_level st = { st with status := st.status ++ '\n' :: secondMsg } := rfl

/-- The index comprehension over `range` is the list filter. -/
theorem range_filterMap_filter (p : Str → Bool) :
    ∀ items : List Str,
    (List.range items.length).filterMap
        (fun i => if p (items.getD i []) then some (items.getD i []) else none)
      = items.filter p := by
  intro items
  induction items with
  | nil => simp
  | cons a As ih =>
    rw [List.length_cons, List.range_succ_eq_map, List.filterMap_cons, List.filterMap_map]
    have hf : ((fun i => if p ((a :: As).getD i []) then some ((a :: As).getD i []) else none)
        ∘ Nat.succ) = fun i => if p (As.getD i []) then some (As.getD i []) else none := by
      funext i
      simp [List.getD_cons_succ]
    rw [hf, ih]
    by_cases hp : p a <;> simp [hp, List.filter_cons]

/-- C9: the confound columns passed as regressors are exactly the
combo-box items whose text is a substring of the currently selected
item's text, in item-index order — e.g. with columns
`trans_x, trans_y, trans_x_der` and `trans_x_der` selected, both
`trans_x` and `trans_x_der` are included, not only the selection. -/
theorem confound_cols_substring_filter :
    (∀ (items : List Str) (current : Str),
      comboFilter items current = items.filter (fun t => pyIn t current)) ∧
    comboFilter ["trans_x".toList, "trans_y".toList, "trans_x_der".toList]
        "trans_x_der".toList
      = ["trans_x".toList, "trans_x_der".toList] := by
  constructor
  · intro items current
    exact range_filterMap_filter (fun t => pyIn t current) items
  · decide


/-- C1 witness: the amended general statement applied to the concrete
line `B: X=1, Y=-1`. -/
theorem parse_contrasts_line_form_witness :
    parse_contrasts ("B".toList ++ ':' ::
        mkSpec [("X".toList, "1".toList), ("Y".toList, "-1".toList)]) =
      .ok [⟨"B".toList, "T".toList, ["X".toList, "Y".toList], [1, -1]⟩] := by
  have h := parse_contrasts_line_form.2 "B".toList
    [("X".toList, "1".toList), ("Y".toList, "-1".toList)] [1, -1]
    (by decide) (by decide) (by decide) (by decide)
    (List.Forall₂.cons (by decide) (List.Forall₂.cons (by decide) List.Forall₂.nil))
    (by decide)
  exact h

/-- C5: the unpickled result object is loaded from exactly
`output_dir + "/Feat1stLevel/modelestimate/result_modelestimate.pklz"`,
where `Feat1stLevel` is the default workflow name of
`create_feat_first_level_wf`; the run consults the loading oracle at no
other path (two environments whose loaders agree on that one path give
identical runs). -/
theorem result_path_hardcoded :
    (∀ od : Str, result_path od =
      od ++ '/' :: ((create_feat_first_level_wf : Workflow).name
        ++ "/modelestimate/result_modelestimate.pklz".toList)) ∧
    (∀ (st : GuiState) (env : Env) (f : Str → Except Str Results),
      f (result_path st.output_dir) = env.load_result (result_path st.output_dir) →
      run_first_level st { env with load_result := f } = run_first_level st env) := by
  constructor
  · intro od
    rfl
  · intro st env f hf
    rw [run_first_level, run_first_level]
    by_cases h : st.bids_dir = [] ∨ st.output_dir = []
    · rw [if_pos h, if_pos h]
    · rw [if_neg h, if_neg h]
      have hcongr : tryBody (logSt st step2msg) { env with load_result := f }
          = tryBody (logSt st step2msg) env := by
        obtain ⟨gb, gm, ge, gc, re, rc, wr, lr, rd⟩ := env
        simp only [Env.load_result] at hf
        rw [tryBody, tryBody]
        simp only [logSt_output_dir, hf]
      simp only [hcongr]

/-- C5 witness: two loaders that agree only at the hardcoded path
produce the same run. -/
theorem result_path_hardcoded_witness :
    run_first_level stOK
      { envOK with load_result := fun p =>
          if p = result_path stOK.output_dir then .ok ⟨[["z0".toList, "z1".toList]]⟩
          else .error "other path".toList } =
    run_first_level stOK envOK :=
  result_path_hardcoded.2 stOK envOK
    (fun p => if p = result_path stOK.output_dir then .ok ⟨[["z0".toList, "z1".toList]]⟩
              else .error "other path".toList)
    (by decide)

/-- The plotting loop writes `zstat_<i>.png` files for the images in
order, starting at index `i`. -/
theorem saveLoop_ok (render : Str → Except Str Unit) : ∀ (zmaps : List Str) (st : GuiState) (i : ℕ),
    (∀ t ∈ zmaps, render t = .ok ()) →
    saveLoop st render i zmaps = .ok { st with files_written := st.files_written ++ (List.range zmaps.length).map (fun k => zstatPath st.output_dir (i + k)) } := by
  intro zmaps
  induction zmaps with
  | nil =>
    intro st i _
    simp [saveLoop]
  | cons t ts ih =>
    intro st i h
    have ht : render t = .ok () := h t (by simp)
    rw [saveLoop]
    simp only [ht]
    rw [ih { st with files_written := st.files_written ++ [zstatPath st.output_dir i] }
        (i + 1) (fun u hu => h u (List.mem_cons_of_mem t hu))]
    show (Except.ok { st with files_written := (st.files_written ++ [zstatPath st.output_dir i]) ++ (List.range ts.length).map (fun k => zstatPath st.output_dir (i + 1 + k)) } : Except (Str × GuiState) GuiState) = _
    refine congrArg (fun l => Except.ok { st with files_written := l }) ?_
    have hfun : (fun k => zstatPath st.output_dir (i + 1 + k)) =
        (fun k => zstatPath st.output_dir (i + (k + 1))) := by
      funext k
      have harith : i + 1 + k = i + (k + 1) := by omega
      rw [harith]
    rw [List.length_cons, List.range_succ_eq_map]
    simp [hfun, Function.comp_def, List.map_map]

/-- C6: in a fully successful run, one PNG is written per image of the
loaded z-stat list, to `output_dir + "/zstat_" + i + ".png"` with
indices `0, 1, ...` following the enumeration order of the list. -/
theorem zstat_png_naming (st : GuiState) (env : Env) (cs : List Contrast)
    (bold mask ev cf : Str) (events : List EventRow) (confounds : ConfTable)
    (bunch : Bunch) (zmaps : List Str) (rest : List (List Str))
    (h1 : st.bids_dir ≠ []) (h2 : st.output_dir ≠ [])
    (h3 : parse_contrasts st.txt_contrasts = .ok cs)
    (h4 : env.get_bold = .ok bold) (h5 : env.get_mask = .ok mask)
    (h6 : env.get_events = .ok ev) (h7 : env.get_confounds = .ok cf)
    (h8 : env.read_events = .ok events) (h9 : env.read_confounds = .ok confounds)
    (h10 : build_subject_info ((splitChar ',' st.txt_tasks).map pyStrip) events confounds
      (comboFilter st.combo_items st.combo_current) = .ok bunch)
    (h11 : env.wf_run (wfExpect st cs bold mask bunch) = .ok ())
    (h12 : env.load_result (result_path st.output_dir) = .ok ⟨zmaps :: rest⟩)
    (h13 : ∀ t ∈ zmaps, env.render t = .ok ()) :
    ∃ st2, run_first_level st env = .ok st2 ∧
      st2.files_written = st.files_written ++
        (List.range zmaps.length).map (fun i => zstatPath st.output_dir i) := by
  rw [run_first_level, if_neg (by simp [h1, h2])]
  simp only [wfExpect] at h11
  simp only [tryBody, logSt_txt_contrasts, logSt_txt_tasks, logSt_txt_session,
    logSt_combo_items, logSt_combo_current, logSt_output_dir,
    h3, h4, h5, h6, h7, h8, h9, h10, create_feat_first_level_wf, h11, h12]
  rw [saveLoop_ok env.render zmaps _ 0 h13]
  refine ⟨_, rfl, ?_⟩
  simp [logSt, zstatPath]

/-- C6 witness: the successful run over `envOK` writes `zstat_0.png`
and `zstat_1.png`. -/
theorem zstat_png_naming_witness :
    ∃ st2, run_first_level stOK envOK = .ok st2 ∧
      st2.files_written = stOK.files_written ++
        (List.range (["z0".toList, "z1".toList] : List Str).length).map
          (fun i => zstatPath stOK.output_dir i) :=
  zstat_png_naming stOK envOK [⟨"A".toList, "T".toList, ["X".toList], [1]⟩]
    "/b/bold.nii.gz".toList "/b/mask.nii.gz".toList "/b/events.tsv".toList
    "/b/conf.tsv".toList [⟨"X".toList, 30, 5⟩]
    [("c".toList, [none, some 1, none, some 2, some 3, none])]
    ⟨["X".toList], [[(30 : ℚ) - 10]], [[5]], [], []⟩
    ["z0".toList, "z1".toList] []
    (by decide) (by decide) (by decide) rfl rfl rfl rfl rfl rfl rfl rfl rfl
    (by intro t _; rfl)

/-- Each regressor produced by `regressors_of` is its column's cells
with NaN replaced by `0` and the first four rows dropped. -/
theorem regressors_of_forall (confounds : ConfTable) :
    ∀ (cols : List Str) (regs : List (List ℚ)),
    regressors_of confounds cols = .ok regs →
    List.Forall₂ (fun c reg => ∃ p, confounds.find? (fun q => q.1 = c) = some p ∧
      reg = (p.2.map (fun x => x.getD 0)).drop 4) cols regs := by
  intro cols
  induction cols with
  | nil =>
    intro regs h
    rw [regressors_of] at h
    cases h
    exact List.Forall₂.nil
  | cons c cs ih =>
    intro regs h
    rw [regressors_of] at h
    cases hcl : col_lookup confounds c with
    | error e =>
      simp only [hcl] at h
      exact Except.noConfusion h
    | ok v =>
      simp only [hcl] at h
      cases hro : regressors_of confounds cs with
      | error e =>
        simp only [hro] at h
        exact Except.noConfusion h
      | ok rs =>
        simp only [hro] at h
        cases h
        refine List.Forall₂.cons ?_ (ih rs hro)
        rw [col_lookup] at hcl
        cases hf : confounds.find? (fun q => q.1 = c) with
        | none =>
          simp only [hf] at hcl
          exact Except.noConfusion hcl
        | some p =>
          simp only [hf] at hcl
          cases hcl
          exact ⟨p, rfl, rfl⟩

/-- C8: in the subject info passed to the pipeline, the onsets for each
task are the onset cells of the events rows whose `trial_type` equals
the task, each reduced by 10; the durations are those rows' durations
unchanged; each regressor is its confound column with NaN replaced by 0
and the first 4 rows dropped; and the run depends on the workflow-run
oracle only through the workflow value carrying exactly this subject
info. -/
theorem subject_info_mapping :
    (∀ (tasks : List Str) (events : List EventRow) (confounds : ConfTable)
       (cols : List Str) (bunch : Bunch),
      build_subject_info tasks events confounds cols = .ok bunch →
      bunch.conditions = tasks ∧
      bunch.onsets = tasks.map (fun t =>
        (events.filter (fun r => r.trial_type = t)).map (fun r => r.onset - 10)) ∧
      bunch.durations = tasks.map (fun t =>
        (events.filter (fun r => r.trial_type = t)).map (fun r => r.duration)) ∧
      bunch.regressor_names = cols ∧
      List.Forall₂ (fun c reg => ∃ p, confounds.find? (fun q => q.1 = c) = some p ∧
        reg = (p.2.map (fun x => x.getD 0)).drop 4) cols bunch.regressors) ∧
    (∀ (st : GuiState) (env : Env) (f g : Workflow → Except Str Unit)
       (cs : List Contrast) (bold mask ev cf : Str) (events : List EventRow)
       (confounds : ConfTable) (bunch : Bunch),
      parse_contrasts st.txt_contrasts = .ok cs →
      env.get_bold = .ok bold → env.get_mask = .ok mask →
      env.get_events = .ok ev → env.get_confounds = .ok cf →
      env.read_events = .ok events → env.read_confounds = .ok confounds →
      build_subject_info ((splitChar ',' st.txt_tasks).map pyStrip) events confounds
        (comboFilter st.combo_items st.combo_current) = .ok bunch →
      f (wfExpect st cs bold mask bunch) = g (wfExpect st cs bold mask bunch) →
      run_first_level st { env with wf_run := f } =
        run_first_level st { env with wf_run := g }) := by
  constructor
  · intro tasks events confounds cols bunch hb
    rw [build_subject_info] at hb
    cases hro : regressors_of confounds cols with
    | error e =>
      simp only [hro] at hb
      exact Except.noConfusion hb
    | ok regs =>
      simp only [hro] at hb
      cases hb
      refine ⟨rfl, ?_, ?_, rfl, ?_⟩
      · simp [df_onsets]
      · simp [df_durations]
      · exact regressors_of_forall confounds cols regs hro
  · intro st env f g cs bold mask ev cf events confounds bunch h3 h4 h5 h6 h7 h8 h9 h10 hfg
    rw [run_first_level, run_first_level]
    by_cases h : st.bids_dir = [] ∨ st.output_dir = []
    · rw [if_pos h, if_pos h]
    · rw [if_neg h, if_neg h]
      have hcongr : tryBody (logSt st step2msg) { env with wf_run := f }
          = tryBody (logSt st step2msg) { env with wf_run := g } := by
        simp only [wfExpect] at hfg
        rw [tryBody, tryBody]
        simp only [logSt_txt_contrasts, logSt_txt_tasks, logSt_txt_session,
          logSt_combo_items, logSt_combo_current, logSt_output_dir,
          h3, h4, h5, h6, h7, h8, h9, h10, create_feat_first_level_wf, hfg]
      simp only [hcongr]

/-- C8 witness: the field characterisation applied to a concrete
one-task events table and one confound column: onset 30 becomes 20,
duration 5 is kept, the column loses its first four (NaN-filled) cells. -/
theorem subject_info_mapping_witness :
    (⟨["X".toList], [[(30 : ℚ) - 10]], [[5]], [[3, 0]], ["c".toList]⟩ : Bunch).conditions
        = ["X".toList] ∧
    (⟨["X".toList], [[(30 : ℚ) - 10]], [[5]], [[3, 0]], ["c".toList]⟩ : Bunch).onsets =
      (["X".toList] : List Str).map (fun t =>
        (([⟨"X".toList, 30, 5⟩] : List EventRow).filter
            (fun r => r.trial_type = t)).map (fun r => r.onset - 10)) ∧
    (⟨["X".toList], [[(30 : ℚ) - 10]], [[5]], [[3, 0]], ["c".toList]⟩ : Bunch).durations =
      (["X".toList] : List Str).map (fun t =>
        (([⟨"X".toList, 30, 5⟩] : List EventRow).filter
            (fun r => r.trial_type = t)).map (fun r => r.duration)) ∧
    (⟨["X".toList], [[(30 : ℚ) - 10]], [[5]], [[3, 0]], ["c".toList]⟩ : Bunch).regressor_names
        = ["c".toList] ∧
    List.Forall₂ (fun c reg => ∃ p,
        (([("c".toList, [none, some 1, none, some 2, some 3, none])] : ConfTable).find?
          (fun q => q.1 = c)) = some p ∧
        reg = (p.2.map (fun x => x.getD 0)).drop 4)
      ["c".toList]
      (⟨["X".toList], [[(30 : ℚ) - 10]], [[5]], [[3, 0]], ["c".toList]⟩ : Bunch).regressors :=
  subject_info_mapping.1 ["X".toList] [⟨"X".toList, 30, 5⟩]
    [("c".toList, [none, some 1, none, some 2, some 3, none])] ["c".toList]
    ⟨["X".toList], [[(30 : ℚ) - 10]], [[5]], [[3, 0]], ["c".toList]⟩ rfl


end FSL
